import Mathlib

/-!
Verification of the song handler of the Ohmic-Bridge repository
(`src/abletonosc/song.py`), as a shallow embedding in Lean 4.

Modelling conventions:
* Python floats (song times) are modelled as exact rationals `ℚ`.
* Python `int()` applied to a float truncates toward zero; this is `pytrunc`.
* The host (`Live`) listener registry for the one callback
  `current_song_time_changed` is modelled as a count of registrations:
  `add_current_song_time_listener` appends one registration and
  `remove_current_song_time_listener` removes one, raising when none is
  registered (the `try/except` in the source swallows that exception).
* A Python exception escaping the handler is modelled with `Except`: since an
  escaped exception discards every value accumulated so far, a handler that
  returns `Except.error e` returns no values at all, which matches the
  observable behaviour.
-/

namespace Abl

/-- Python `int()` on a float/rational: truncation toward zero,
`num.tdiv den` (the denominator of a `ℚ` is positive). -/
def pytrunc (q : ℚ) : ℤ :=
  q.num.tdiv q.den

/-- State of the song handler that the beat listener touches:
`self.last_song_time` (set to `-1.0` in `init_api`, line 328) together with the
number of host-side registrations of `current_song_time_changed`. -/
structure BeatListenerState where
  last_song_time : ℚ
  listeners : Nat
  deriving DecidableEq, Repr

/-- The state right after `init_api` ran: `self.last_song_time = -1.0`
(line 328) and no host listener registered yet. -/
def initBeatListenerState : BeatListenerState :=
  { last_song_time := -1, listeners := 0 }

/-- Host API `remove_current_song_time_listener`: removes one registration of
the callback, raising when the callback is not currently registered. -/
def remove_current_song_time_listener (n : Nat) : Except Unit Nat :=
  match n with
  | 0 => .error ()
  | m + 1 => .ok m

/-- `stop_beat_listener` (song.py lines 330-335): try to remove the listener,
swallowing any exception (`except: pass`). -/
def stop_beat_listener (s : BeatListenerState) : BeatListenerState :=
  match remove_current_song_time_listener s.listeners with
  | .ok n => { s with listeners := n }
  | .error _ => s

/-- `start_beat_listener` (song.py lines 337-340): first `stop_beat_listener()`,
then `add_current_song_time_listener` (one more registration). It does not
touch `self.last_song_time`. -/
def start_beat_listener (s : BeatListenerState) : BeatListenerState :=
  let s := stop_beat_listener s
  { s with listeners := s.listeners + 1 }

/-- `current_song_time_changed` (song.py lines 345-352): on a notification with
new song time `t`, send `/live/song/get/beat` with `int(t)` when
`t < self.last_song_time` or `int(t) > int(self.last_song_time)`; in either
case set `self.last_song_time = t` afterwards. The first component is the
message payload sent (`none` when no message is sent). -/
def current_song_time_changed (t : ℚ) (s : BeatListenerState) :
    Option ℤ × BeatListenerState :=
  if t < s.last_song_time ∨ pytrunc s.last_song_time < pytrunc t then
    (some (pytrunc t), { s with last_song_time := t })
  else
    (none, { s with last_song_time := t })

/-- Deliver a sequence of current-song-time notifications, recording for each
one whether a beat message was emitted. -/
def runBeatNotifications (s : BeatListenerState) : List ℚ → List Bool
  | [] => []
  | t :: ts =>
    let r := current_song_time_changed t s
    r.1.isSome :: runBeatNotifications r.2 ts

/-- A start/stop request on `/live/song/start_listen/beat` or
`/live/song/stop_listen/beat`. -/
inductive BeatOp where
  | start
  | stop
  deriving DecidableEq, Repr

/-- Handle one beat start/stop request. -/
def runBeatOp (s : BeatListenerState) : BeatOp → BeatListenerState
  | .start => start_beat_listener s
  | .stop => stop_beat_listener s

/-- Handle a sequence of beat start/stop requests. -/
def runBeatOps (s : BeatListenerState) (ops : List BeatOp) : BeatListenerState :=
  ops.foldl runBeatOp s

/-- `pytrunc` is the floor for nonnegative arguments and the ceiling for
negative ones — exactly Python `int()` on a float. -/
theorem pytrunc_eq (q : ℚ) : pytrunc q = if q < 0 then ⌈q⌉ else ⌊q⌋ := by
  unfold pytrunc
  split
  · rename_i hq
    have hnum : q.num ≤ 0 := by
      by_contra hc
      push_neg at hc
      exact absurd (Rat.num_nonneg.mp (le_of_lt hc)) (not_le.mpr hq)
    have h1 : q.num.tdiv q.den = -((-q.num).tdiv q.den) := by
      rw [Int.neg_tdiv, Int.neg_neg]
    have h2 : (-q.num).tdiv q.den = (-q.num) / (q.den : ℤ) :=
      Int.tdiv_eq_ediv (by omega) (by positivity)
    have h3 : ⌊-q⌋ = (-q.num) / (q.den : ℤ) := by
      rw [Rat.floor_def, Rat.num_neg_eq_neg_num, Rat.den_neg_eq_den]
    rw [h1, h2, ← h3, Int.floor_neg, Int.neg_neg]
  · rename_i hq
    have hnum : 0 ≤ q.num := Rat.num_nonneg.mpr (not_lt.mp hq)
    rw [Int.tdiv_eq_ediv hnum (by positivity), Rat.floor_def]

/-- Truncation toward zero is monotone. -/
theorem pytrunc_mono {q r : ℚ} (h : q ≤ r) : pytrunc q ≤ pytrunc r := by
  rw [pytrunc_eq, pytrunc_eq]
  by_cases hq : q < 0 <;> by_cases hr : r < 0 <;> simp [hq, hr]
  · exact Int.ceil_le_ceil h
  · calc ⌈q⌉ ≤ 0 := Int.ceil_le.mpr (by exact_mod_cast le_of_lt hq)
      _ ≤ ⌊r⌋ := Int.le_floor.mpr (by exact_mod_cast not_lt.mp hr)
  · exact absurd (lt_of_le_of_lt h hr) hq
  · exact Int.floor_le_floor h

/-- One start/stop request keeps the registration count at most one. -/
theorem runBeatOp_listeners_le (s : BeatListenerState) (h : s.listeners ≤ 1)
    (op : BeatOp) : (runBeatOp s op).listeners ≤ 1 := by
  cases op <;>
    unfold runBeatOp start_beat_listener stop_beat_listener
      remove_current_song_time_listener <;>
    cases hn : s.listeners <;> simp_all

/-- Any request sequence from a state with at most one registration keeps the
registration count at most one. -/
theorem runBeatOps_listeners_le (ops : List BeatOp) :
    ∀ s : BeatListenerState, s.listeners ≤ 1 → (runBeatOps s ops).listeners ≤ 1 := by
  induction ops with
  | nil => intro s h; exact h
  | cons op ops ih =>
    intro s h
    exact ih _ (runBeatOp_listeners_le s h op)

/-- C2: on a single notification with previous stored time `last_song_time`
and new time `t`, a beat message is sent iff the truncated integer part of `t`
differs from that of `last_song_time` or `t` is strictly below
`last_song_time`; in both cases `last_song_time` is updated to `t`
afterwards. -/
theorem beat_event_iff_integer_change_or_rewind (t : ℚ) (s : BeatListenerState) :
    ((current_song_time_changed t s).1.isSome ↔
      (pytrunc t ≠ pytrunc s.last_song_time ∨ t < s.last_song_time)) ∧
    (current_song_time_changed t s).2.last_song_time = t := by
  constructor
  · unfold current_song_time_changed
    by_cases hc : t < s.last_song_time ∨ pytrunc s.last_song_time < pytrunc t
    · rw [if_pos hc]
      simp only [Option.isSome_some, true_iff]
      rcases hc with h | h
      · exact Or.inr h
      · exact Or.inl (ne_of_gt h)
    · rw [if_neg hc]
      push_neg at hc
      obtain ⟨h1, h2⟩ := hc
      simp only [Option.isSome_none, Bool.false_eq_true, false_iff]
      intro hcontra
      rcases hcontra with h | h
      · exact h (le_antisymm h2 (pytrunc_mono h1))
      · exact absurd h (not_lt.mpr h1)
  · unfold current_song_time_changed
    split <;> rfl

/-- C1 counterexample: after `init_api` (which sets `last_song_time = -1.0`)
and a `start_listen` beat request, the notification sequence
`0.4, 0.9, 1.1, 1.1, 0.2` does NOT produce the claimed pattern of exactly two
events at the third and fifth notifications only: three events fire, one of
them at the very first (`0.4`) notification, because `int(0.4) = 0` exceeds
`int(-1.0) = -1`. -/
theorem beat_sequence_counterexample :
    runBeatNotifications (start_beat_listener initBeatListenerState)
        [Rat.divInt 2 5, Rat.divInt 9 10, Rat.divInt 11 10,
         Rat.divInt 11 10, Rat.divInt 1 5]
      ≠ [false, false, true, false, true] ∧
    (runBeatNotifications (start_beat_listener initBeatListenerState)
        [Rat.divInt 2 5, Rat.divInt 9 10, Rat.divInt 11 10,
         Rat.divInt 11 10, Rat.divInt 1 5]).count true ≠ 2 := by
  decide

/-- C1 amended: after `init_api` and a `start_listen` beat request, the
notification sequence `0.4, 0.9, 1.1, 1.1, 0.2` fires exactly three events —
at the first notification (`0.4`, integer part goes from `-1` to `0`), at the
`0.9 → 1.1` notification, and at the `1.1 → 0.2` notification — and no event
at the `0.9` or the repeated `1.1` notification. -/
theorem beat_sequence_three_events :
    runBeatNotifications (start_beat_listener initBeatListenerState)
        [Rat.divInt 2 5, Rat.divInt 9 10, Rat.divInt 11 10,
         Rat.divInt 11 10, Rat.divInt 1 5]
      = [true, false, true, false, true] := by
  decide

/-- C3 counterexample: a `start_listen` beat request does not reset the stored
last time; from a state with `last_song_time = 5` it stays `5`, not the
initial `-1.0`. -/
theorem start_listener_no_reset_counterexample :
    (start_beat_listener { last_song_time := 5, listeners := 0 }).last_song_time = 5 ∧
    initBeatListenerState.last_song_time = -1 ∧ (5 : ℚ) ≠ -1 := by
  decide

/-- C3 amended: `start_beat_listener` leaves `last_song_time` unchanged in
every state; the stored last time is set to `-1.0` only once, when `init_api`
runs. -/
theorem start_listener_preserves_last_time (s : BeatListenerState) :
    (start_beat_listener s).last_song_time = s.last_song_time ∧
    initBeatListenerState.last_song_time = -1 := by
  refine ⟨?_, rfl⟩
  unfold start_beat_listener stop_beat_listener
  cases hn : remove_current_song_time_listener s.listeners <;> simp

/-- C4: starting from the post-`init_api` state, every sequence of
`start_listen`/`stop_listen` beat requests leaves at most one host-side
registration of `current_song_time_changed`; `stop_listen` on a state with no
registration is a no-op (and is a total function, i.e. never raises: the
`except: pass` swallows the host error); and `start_listen` first removes any
prior registration before adding exactly one. -/
theorem beat_listener_single_subscription :
    (∀ ops : List BeatOp, (runBeatOps initBeatListenerState ops).listeners ≤ 1) ∧
    (∀ s : BeatListenerState, s.listeners = 0 → stop_beat_listener s = s) ∧
    (∀ s : BeatListenerState,
      (start_beat_listener s).listeners = (stop_beat_listener s).listeners + 1) := by
  refine ⟨fun ops => runBeatOps_listeners_le ops _ (by decide), ?_, ?_⟩
  · intro s h
    unfold stop_beat_listener remove_current_song_time_listener
    rw [h]
  · intro s
    rfl

/-- Witness for C4 at a concrete request sequence and a concrete
never-started state. -/
theorem beat_listener_single_subscription_witness :
    (runBeatOps initBeatListenerState
      [.start, .start, .stop, .stop, .start]).listeners ≤ 1 ∧
    stop_beat_listener initBeatListenerState = initBeatListenerState :=
  ⟨beat_listener_single_subscription.1 [.start, .start, .stop, .stop, .start],
   beat_listener_single_subscription.2.1 initBeatListenerState (by decide)⟩

/-! ## Bulk query engine: `song_get_track_data` (song.py lines 170-222)

The live object graph is modelled as follows. A wire-encodable Python value
is a `Value`; `getattr` on a clip, clip slot or device yields a `Value` or
raises `AttributeError` (modelled as `Option`). `getattr` on a track can also
yield another track object (e.g. `group_track`); Live track objects have
identity-based equality, modelled by a numeric identity `id`, and
`list(self.song.tracks).index(value)` finds the first position holding that
identity (`ValueError` when absent). An exception escaping the handler
discards everything accumulated so far, so the handler is an
`Except PyErr (List Value)` whose `error` results return no values at all. -/

/-- A Python value appended to the `track_data` response. `vnull` is Python
`None` (appended for an empty clip slot). -/
inductive Value where
  | vstr : String → Value
  | vint : ℤ → Value
  | vrat : ℚ → Value
  | vbool : Bool → Value
  | vnull : Value
  deriving DecidableEq, Repr

/-- A Python exception escaping the handler. -/
inductive PyErr where
  | valueError
  | indexError
  | attributeError
  deriving DecidableEq, Repr

/-- A track attribute value: either a plain wire value or a reference to
another track object (identified by the track's identity), as returned by
e.g. `track.group_track`. -/
inductive TrackAttr where
  | plain : Value → TrackAttr
  | trackRef : Nat → TrackAttr

/-- A clip; `getattr(clip, p)` is `attrs p` (`none` = `AttributeError`). -/
structure Clip where
  attrs : String → Option Value

/-- A clip slot: an optional clip plus the slot's own attributes. -/
structure ClipSlot where
  clip : Option Clip
  attrs : String → Option Value

/-- A device on a track's device chain. -/
structure Device where
  attrs : String → Option Value

/-- A track: an identity (Live object identity), its attributes, its clip
slots in slot order and its devices in chain order. -/
structure Track where
  id : Nat
  attrs : String → Option TrackAttr
  clip_slots : List ClipSlot
  devices : List Device

/-- The song: its track list. -/
structure Song where
  tracks : List Track

/-- Python `range(a, b)` over integers, ascending, empty when `b ≤ a`. -/
def intRange (a b : ℤ) : List ℤ :=
  (List.range (b - a).toNat).map (fun k : ℕ => a + (k : ℤ))

/-- Python list subscript `xs[i]`: negative indices count from the end,
anything out of range raises `IndexError`. -/
def pyListGet {α : Type} (xs : List α) (i : ℤ) : Except PyErr α :=
  let j : ℤ := if i < 0 then i + xs.length else i
  if 0 ≤ j then
    match xs[j.toNat]? with
    | some x => .ok x
    | none => .error .indexError
  else
    .error .indexError

/-- Python `list(tracks).index(value)` for a track object `value` with
identity `tid`: the first position in `tracks` holding that object,
`ValueError` when absent. -/
def pyTrackIndex (tracks : List Track) (tid : Nat) : Except PyErr ℤ :=
  match tracks.findIdx? (fun t => t.id == tid) with
  | some j => .ok j
  | none => .error .valueError

/-- `getattr(track, pname)` followed by the source's
`isinstance(value, Live.Track.Track)` resolution (song.py lines 200-205): a
track-object value is mapped to its index in `self.song.tracks`. -/
def getattrTrack (song : Song) (track : Track) (pname : String) :
    Except PyErr Value :=
  match track.attrs pname with
  | none => .error .attributeError
  | some (.plain v) => .ok v
  | some (.trackRef tid) => do
    let j ← pyTrackIndex song.tracks tid
    pure (.vint j)

/-- `getattr` on an entity with plain attributes. -/
def getattrValue (attrs : String → Option Value) (pname : String) :
    Except PyErr Value :=
  match attrs pname with
  | some v => .ok v
  | none => .error .attributeError

/-- Evaluate an `Except`-valued function on every element of a list, left to
right, stopping at the first error (the effect of a Python `for` loop whose
body may raise). -/
def mapE {α β : Type} (f : α → Except PyErr β) : List α → Except PyErr (List β)
  | [] => .ok []
  | x :: xs => do
    let y ← f x
    let ys ← mapE f xs
    pure (y :: ys)

/-- Python `str.split(".")` on the character list: every occurrence of `'.'`
separates two (possibly empty) groups, so `"a.b"` gives `["a", "b"]`,
`"name"` gives `["name"]`, `"a.b.c"` gives `["a", "b", "c"]` and `""` gives
`[""]`. -/
def splitCharsOnDot : List Char → List (List Char)
  | [] => [[]]
  | c :: rest =>
    let r := splitCharsOnDot rest
    if c = '.' then
      [] :: r
    else
      match r with
      | [] => [[c]]
      | g :: gs => (c :: g) :: gs

/-- Python `prop.split(".")`. -/
def pySplitDot (s : String) : List String :=
  (splitCharsOnDot s.toList).map (fun cs => String.mk cs)

/-- The values one token `prop` of the query contributes for one `track`
(the body of the inner `for prop in properties` loop, song.py lines
194-220): `obj, property_name = prop.split(".")` raises `ValueError` unless
the split has exactly two parts; then the `track`/`clip`/`clip_slot`/`device`
branches append their values, and any other entity keyword is logged and
skipped (contributing nothing). -/
def track_data_token (song : Song) (track : Track) (prop : String) :
    Except PyErr (List Value) :=
  match pySplitDot prop with
  | [obj, property_name] =>
    if obj = "track" then
      if property_name = "num_devices" then
        .ok [.vint track.devices.length]
      else do
        let v ← getattrTrack song track property_name
        pure [v]
    else if obj = "clip" then
      mapE (fun clip_slot =>
        match clip_slot.clip with
        | some clip => getattrValue clip.attrs property_name
        | none => .ok .vnull) track.clip_slots
    else if obj = "clip_slot" then
      mapE (fun clip_slot =>
        getattrValue clip_slot.attrs property_name) track.clip_slots
    else if obj = "device" then
      mapE (fun device =>
        getattrValue device.attrs property_name) track.devices
    else
      .ok []
  | _ => .error .valueError

/-- `song_get_track_data` (song.py lines 170-222): resolve a `-1` upper bound
to the current track count, then for each track index in
`range(track_index_min, track_index_max)` append, token by token, the values
of every requested token to the accumulator `rv`. -/
def song_get_track_data (song : Song) (track_index_min track_index_max : ℤ)
    (properties : List String) : Except PyErr (List Value) :=
  let track_index_max :=
    if track_index_max = -1 then (song.tracks.length : ℤ) else track_index_max
  (intRange track_index_min track_index_max).foldlM
    (fun rv track_index => do
      let track ← pyListGet song.tracks track_index
      properties.foldlM
        (fun rv prop => do
          let vs ← track_data_token song track prop
          pure (rv ++ vs))
        rv)
    []

/-- All values one track index contributes: the track looked up by index, then
the per-token value lists in request order, concatenated. -/
def track_values (song : Song) (properties : List String) (i : ℤ) :
    Except PyErr (List Value) := do
  let track ← pyListGet song.tracks i
  let perToken ← mapE (track_data_token song track) properties
  pure perToken.flatten

/-- The spec's description of the same query (spec.md §4.4): resolve a `-1`
upper bound against the current track count, then produce the flat
concatenation, per track index of `[min, max)` in ascending order, of the
per-token value lists in request order — track-major, token-minor. -/
def track_data_spec_order (song : Song) (tmin tmax : ℤ)
    (properties : List String) : Except PyErr (List Value) := do
  let perTrack ← mapE (track_values song properties)
    (intRange tmin (if tmax = -1 then (song.tracks.length : ℤ) else tmax))
  pure perTrack.flatten

/-- Demo session used for concrete checks: two tracks, track 0 with clip
slots `["A", None]` and track 1 with clip slots `[None, "B"]` (spec.md §8,
property 5). -/
def demoClipA : Clip :=
  { attrs := fun p => if p = "name" then some (.vstr "A") else none }

/-- Demo clip named "B". -/
def demoClipB : Clip :=
  { attrs := fun p => if p = "name" then some (.vstr "B") else none }

/-- A clip slot holding a given clip. -/
def slotWith (c : Clip) : ClipSlot :=
  { clip := some c, attrs := fun p => if p = "has_clip" then some (.vbool true) else none }

/-- An empty clip slot. -/
def slotEmpty : ClipSlot :=
  { clip := none, attrs := fun p => if p = "has_clip" then some (.vbool false) else none }

/-- Demo track 0: clip slots `["A", None]`. -/
def demoTrack0 : Track :=
  { id := 0
    attrs := fun p => if p = "name" then some (.plain (.vstr "t0")) else none
    clip_slots := [slotWith demoClipA, slotEmpty]
    devices := [] }

/-- Demo track 1: clip slots `[None, "B"]`. -/
def demoTrack1 : Track :=
  { id := 1
    attrs := fun p => if p = "name" then some (.plain (.vstr "t1")) else none
    clip_slots := [slotEmpty, slotWith demoClipB]
    devices := [] }

/-- The demo song holding the two demo tracks. -/
def demoSong : Song :=
  { tracks := [demoTrack0, demoTrack1] }

/-- A demo group track (the target of a `group_track` reference). -/
def demoGroupTrack : Track :=
  { id := 7, attrs := fun _ => none, clip_slots := [], devices := [] }

/-- A demo device. -/
def demoDevice : Device :=
  { attrs := fun p => if p = "name" then some (.vstr "dev") else none }

/-- A demo track whose `group_track` attribute references the group track by
identity, and which carries one device. -/
def demoGroupedTrack : Track :=
  { id := 3
    attrs := fun p =>
      if p = "group_track" then some (.trackRef 7)
      else if p = "num_devices" then some (.plain (.vstr "bogus"))
      else none
    clip_slots := []
    devices := [demoDevice] }

/-- A demo song where track 1 is grouped under track 0. -/
def demoGroupedSong : Song :=
  { tracks := [demoGroupTrack, demoGroupedTrack] }

/-- Binding an `ok` just applies the continuation. -/
@[simp] theorem bindE_ok {ε α β : Type} (a : α) (g : α → Except ε β) :
    (Except.ok a : Except ε α) >>= g = g a := rfl

/-- Binding an `error` propagates the error. -/
@[simp] theorem bindE_error {ε α β : Type} (e : ε) (g : α → Except ε β) :
    (Except.error e : Except ε α) >>= g = .error e := rfl

/-- `pure` into `Except` is `ok`. -/
@[simp] theorem pureE {ε α : Type} (a : α) :
    (pure a : Except ε α) = .ok a := rfl

/-- Binding a `pure` applies the continuation. -/
@[simp] theorem bindE_pure {ε α β : Type} (a : α) (g : α → Except ε β) :
    (pure a : Except ε α) >>= g = g a := rfl

/-- `mapE` on an empty list. -/
@[simp] theorem mapE_nil {α β : Type} (f : α → Except PyErr β) :
    mapE f [] = .ok [] := rfl

/-- `mapE` on a cons. -/
@[simp] theorem mapE_cons {α β : Type} (f : α → Except PyErr β) (x : α)
    (xs : List α) :
    mapE f (x :: xs) = (do
      let y ← f x
      let ys ← mapE f xs
      pure (y :: ys)) := rfl

/-- Folding an accumulator through appends equals collecting the pieces with
`mapE` and flattening them after the prefix. -/
theorem foldlM_append_eq {α : Type} (f : α → Except PyErr (List Value)) :
    ∀ (xs : List α) (acc : List Value),
      xs.foldlM (fun rv x => do
        let vs ← f x
        pure (rv ++ vs)) acc
        = (do
            let ls ← mapE f xs
            pure (acc ++ ls.flatten)) := by
  intro xs
  induction xs with
  | nil => intro acc; simp [List.foldlM_nil]
  | cons x xs ih =>
    intro acc
    rw [List.foldlM_cons, mapE_cons]
    cases hfx : f x with
    | error e => simp [hfx]
    | ok vs =>
      simp only [hfx, bindE_ok, bindE_pure]
      rw [ih (acc ++ vs)]
      cases mapE f xs <;> simp [List.append_assoc]

/-- The imperative accumulator loop of `song_get_track_data` equals the
track-major collection: one value list per track index, flattened after the
accumulator. -/
theorem track_data_foldlM_eq (song : Song) (props : List String) :
    ∀ (idxs : List ℤ) (acc : List Value),
      idxs.foldlM (fun rv track_index => do
          let track ← pyListGet song.tracks track_index
          props.foldlM (fun rv prop => do
              let vs ← track_data_token song track prop
              pure (rv ++ vs)) rv) acc
        = (do
            let perTrack ← mapE (track_values song props) idxs
            pure (acc ++ perTrack.flatten)) := by
  intro idxs
  induction idxs with
  | nil => intro acc; simp [List.foldlM_nil]
  | cons i idxs ih =>
    intro acc
    rw [List.foldlM_cons, mapE_cons]
    cases hg : pyListGet song.tracks i with
    | error e => simp [track_values, hg]
    | ok track =>
      simp only [hg, bindE_ok]
      rw [foldlM_append_eq (track_data_token song track) props acc]
      cases hm : mapE (track_data_token song track) props with
      | error e => simp [track_values, hg, hm]
      | ok perToken =>
        simp only [track_values, hg, hm, bindE_ok, bindE_pure]
        rw [ih (acc ++ perToken.flatten)]
        cases mapE (track_values song props) idxs <;>
          simp [List.append_assoc]

/-- `song_get_track_data` computes exactly the spec-ordered flat response. -/
theorem track_data_eq_spec (song : Song) (tmin tmax : ℤ) (props : List String) :
    song_get_track_data song tmin tmax props
      = track_data_spec_order song tmin tmax props := by
  unfold song_get_track_data track_data_spec_order
  rw [track_data_foldlM_eq]
  rfl

/-- `Except.map` over `ok`. -/
@[simp] theorem mapExceptE_ok {ε α β : Type} (g : α → β) (a : α) :
    (Except.ok a : Except ε α).map g = .ok (g a) := rfl

/-- `Except.map` over `error`. -/
@[simp] theorem mapExceptE_error {ε α β : Type} (g : α → β) (e : ε) :
    (Except.error e : Except ε α).map g = .error e := rfl

/-- Unfolded form of one token's evaluation once the split is known to have
exactly two parts. -/
theorem track_data_token_eq (song : Song) (track : Track)
    (tok obj property_name : String)
    (hsplit : pySplitDot tok = [obj, property_name]) :
    track_data_token song track tok =
      (if obj = "track" then
        if property_name = "num_devices" then
          .ok [.vint track.devices.length]
        else do
          let v ← getattrTrack song track property_name
          pure [v]
      else if obj = "clip" then
        mapE (fun clip_slot =>
          match clip_slot.clip with
          | some clip => getattrValue clip.attrs property_name
          | none => .ok .vnull) track.clip_slots
      else if obj = "clip_slot" then
        mapE (fun clip_slot =>
          getattrValue clip_slot.attrs property_name) track.clip_slots
      else if obj = "device" then
        mapE (fun device =>
          getattrValue device.attrs property_name) track.devices
      else .ok []) := by
  unfold track_data_token
  rw [hsplit]

/-- A slot either is empty or its clip defines the requested property. -/
def clipAttrDefined (property_name : String) (clip_slot : ClipSlot) : Bool :=
  match clip_slot.clip with
  | some clip => (clip.attrs property_name).isSome
  | none => true

/-- The clip branch of the token loop produces exactly the per-slot list:
the clip's property for an occupied slot, `None` for an empty one. -/
theorem mapE_clip_slots (property_name : String) :
    ∀ slots : List ClipSlot, slots.all (clipAttrDefined property_name) = true →
      mapE (fun clip_slot =>
        match clip_slot.clip with
        | some clip => getattrValue clip.attrs property_name
        | none => .ok .vnull) slots
      = .ok (slots.map (fun clip_slot =>
          match clip_slot.clip with
          | some clip => (clip.attrs property_name).getD .vnull
          | none => Value.vnull)) := by
  intro slots
  induction slots with
  | nil => intro _; rfl
  | cons s ss ih =>
    intro hall
    rw [List.all_cons, Bool.and_eq_true] at hall
    obtain ⟨hs, hss⟩ := hall
    rw [mapE_cons, ih hss]
    cases hc : s.clip with
    | none => simp [hc]
    | some clip =>
      simp only [clipAttrDefined, hc] at hs
      cases ha : clip.attrs property_name with
      | none => rw [ha] at hs; simp at hs
      | some v => simp [hc, getattrValue, ha]

/-- C5: a `clip.<prop>` token contributes, for each queried track, exactly one
value per clip slot in slot order — the clip's property for an occupied slot,
an explicit `None` for an empty one — and on the demo session (track 0 slots
`["A", None]`, track 1 slots `[None, "B"]`) the query `0 2 clip.name` returns
exactly `["A", None, None, "B"]`. -/
theorem clip_token_one_value_per_slot (song : Song) (track : Track)
    (tok property_name : String)
    (hsplit : pySplitDot tok = ["clip", property_name])
    (hdef : track.clip_slots.all (clipAttrDefined property_name) = true) :
    (track_data_token song track tok
      = .ok (track.clip_slots.map (fun clip_slot =>
          match clip_slot.clip with
          | some clip => (clip.attrs property_name).getD .vnull
          | none => Value.vnull)) ∧
     (track.clip_slots.map (fun clip_slot =>
          match clip_slot.clip with
          | some clip => (clip.attrs property_name).getD .vnull
          | none => Value.vnull)).length = track.clip_slots.length) ∧
    song_get_track_data demoSong 0 2 ["clip.name"]
      = .ok [.vstr "A", .vnull, .vnull, .vstr "B"] := by
  refine ⟨⟨?_, by simp⟩, by rfl⟩
  rw [track_data_token_eq song track tok "clip" property_name hsplit,
      if_neg (by decide : ¬ ("clip" = "track")), if_pos rfl]
  exact mapE_clip_slots property_name track.clip_slots hdef

/-- Witness for C5 on the demo session's track 0. -/
theorem clip_token_one_value_per_slot_witness :
    track_data_token demoSong demoTrack0 "clip.name" = .ok [.vstr "A", .vnull] :=
  ((clip_token_one_value_per_slot demoSong demoTrack0 "clip.name" "name"
    (by rfl) (by rfl)).1.1).trans (by rfl)

/-- C6: a `-1` upper bound is replaced by the track count read from the song
at call time, and the response is the spec-ordered flat sequence — track
indices of `[min, max)` ascending, every token in request order within each
track (track-major, token-minor). -/
theorem track_data_minus_one_and_order (song : Song) (tmin tmax : ℤ)
    (props : List String) :
    song_get_track_data song tmin (-1) props
      = song_get_track_data song tmin (song.tracks.length : ℤ) props ∧
    song_get_track_data song tmin tmax props
      = track_data_spec_order song tmin tmax props := by
  constructor
  · unfold song_get_track_data
    simp
  · exact track_data_eq_spec song tmin tmax props

/-- C7: a `track.<prop>` token whose fetched value is a track object resolves
it to that track's index in the current track list, and `track.num_devices`
is computed directly as the device count of the track, whatever its
attributes say. -/
theorem track_token_resolves_reference (song : Song) (track : Track)
    (tok property_name : String) (tid j : Nat)
    (hsplit : pySplitDot tok = ["track", property_name])
    (hnd : property_name ≠ "num_devices")
    (hattr : track.attrs property_name = some (.trackRef tid))
    (hfind : song.tracks.findIdx? (fun t => t.id == tid) = some j) :
    track_data_token song track tok = .ok [.vint j] ∧
    ∀ track2 : Track, track_data_token song track2 "track.num_devices"
      = .ok [.vint track2.devices.length] := by
  constructor
  · rw [track_data_token_eq song track tok "track" property_name hsplit,
        if_pos rfl, if_neg hnd]
    simp [getattrTrack, hattr, pyTrackIndex, hfind]
  · intro track2
    rfl

/-- Witness for C7: in the demo grouped session, `track.group_track` of the
grouped track resolves to index `0`, and `track.num_devices` counts its one
device even though a bogus `num_devices` attribute is present. -/
theorem track_token_resolves_reference_witness :
    track_data_token demoGroupedSong demoGroupedTrack "track.group_track"
      = .ok [.vint 0] ∧
    track_data_token demoGroupedSong demoGroupedTrack "track.num_devices"
      = .ok [.vint 1] := by
  have h := track_token_resolves_reference demoGroupedSong demoGroupedTrack
    "track.group_track" "group_track" 7 0 (by rfl) (by decide) (by rfl) (by rfl)
  exact ⟨h.1, (h.2 demoGroupedTrack).trans (by rfl)⟩

/-- A token whose entity keyword is none of the four known ones contributes
no values and no error: the source logs and continues. -/
theorem track_data_token_unknown_entity (song : Song) (track : Track)
    (tok obj property_name : String)
    (hsplit : pySplitDot tok = [obj, property_name])
    (h1 : obj ≠ "track") (h2 : obj ≠ "clip") (h3 : obj ≠ "clip_slot")
    (h4 : obj ≠ "device") :
    track_data_token song track tok = .ok [] := by
  rw [track_data_token_eq song track tok obj property_name hsplit,
      if_neg h1, if_neg h2, if_neg h3, if_neg h4]

/-- Two `Except` computations of per-token lists with equal flattenings give
equal flattened responses. -/
theorem bind_flatten_eq {x y : Except PyErr (List (List Value))}
    (h : x.map List.flatten = y.map List.flatten) :
    (do
      let per ← x
      pure per.flatten : Except PyErr (List Value))
      = (do
          let per ← y
          pure per.flatten) := by
  cases x <;> cases y <;> simp_all

/-- Removing a token that contributes `ok []` from the token list leaves the
flattened per-token collection unchanged. -/
theorem mapE_skip_token (song : Song) (track : Track) (tok : String)
    (htok : track_data_token song track tok = .ok []) :
    ∀ l1 l2 : List String,
      (mapE (track_data_token song track) (l1 ++ tok :: l2)).map List.flatten
        = (mapE (track_data_token song track) (l1 ++ l2)).map List.flatten := by
  intro l1
  induction l1 with
  | nil =>
    intro l2
    simp only [List.nil_append, mapE_cons, htok, bindE_ok]
    cases mapE (track_data_token song track) l2 <;> simp
  | cons p l1 ih =>
    intro l2
    simp only [List.cons_append, mapE_cons]
    cases hp : track_data_token song track p with
    | error e => simp
    | ok vs =>
      simp only [bindE_ok]
      have hih := ih l2
      cases hA : mapE (track_data_token song track) (l1 ++ tok :: l2) with
      | error e =>
        rw [hA] at hih
        cases hB : mapE (track_data_token song track) (l1 ++ l2) with
        | error e2 => rw [hB] at hih; simp_all
        | ok b => rw [hB] at hih; simp_all
      | ok a =>
        rw [hA] at hih
        cases hB : mapE (track_data_token song track) (l1 ++ l2) with
        | error e2 => rw [hB] at hih; simp_all
        | ok b =>
          rw [hB] at hih
          simp only [mapExceptE_ok, Except.ok.injEq] at hih
          simp [hih]

/-- C8: a well-formed token with an unknown entity keyword (anything other
than `track`, `clip`, `clip_slot`, `device`) is skipped: the whole query
returns exactly what it returns without that token, every other token still
contributing all of its values in its normal position. -/
theorem unknown_entity_token_degrades (song : Song) (tmin tmax : ℤ)
    (l1 l2 : List String) (tok obj property_name : String)
    (hsplit : pySplitDot tok = [obj, property_name])
    (h1 : obj ≠ "track") (h2 : obj ≠ "clip") (h3 : obj ≠ "clip_slot")
    (h4 : obj ≠ "device") :
    song_get_track_data song tmin tmax (l1 ++ tok :: l2)
      = song_get_track_data song tmin tmax (l1 ++ l2) := by
  rw [track_data_eq_spec, track_data_eq_spec]
  unfold track_data_spec_order
  have hv : track_values song (l1 ++ tok :: l2) = track_values song (l1 ++ l2) := by
    funext i
    unfold track_values
    cases hg : pyListGet song.tracks i with
    | error e => simp
    | ok track =>
      simp only [bindE_ok]
      exact bind_flatten_eq (mapE_skip_token song track tok
        (track_data_token_unknown_entity song track tok obj property_name
          hsplit h1 h2 h3 h4) l1 l2)
  rw [hv]

/-- Witness for C8: on the demo session, prepending the unknown token
`widget.x` to the query `0 2 clip.name` leaves the response unchanged. -/
theorem unknown_entity_token_degrades_witness :
    song_get_track_data demoSong 0 2 ["widget.x", "clip.name"]
      = song_get_track_data demoSong 0 2 ["clip.name"] ∧
    song_get_track_data demoSong 0 2 ["clip.name"]
      = .ok [.vstr "A", .vnull, .vnull, .vstr "B"] :=
  ⟨unknown_entity_token_degrades demoSong 0 2 [] ["clip.name"]
      "widget.x" "widget" "x" (by rfl)
      (by decide) (by decide) (by decide) (by decide),
   by rfl⟩

/-- A token whose split does not have exactly two parts raises `ValueError`
at the tuple unpacking, whatever the track. -/
theorem track_data_token_bad_split (song : Song) (track : Track) (tok : String)
    (hbad : (pySplitDot tok).length ≠ 2) :
    track_data_token song track tok = .error .valueError := by
  unfold track_data_token
  rcases hs : pySplitDot tok with _ | ⟨a, _ | ⟨b, _ | ⟨c, l⟩⟩⟩
  · rfl
  · rfl
  · rw [hs] at hbad; simp at hbad
  · rfl

/-- If some token of the list always errors, the per-token collection for any
track errors. -/
theorem mapE_mem_error (song : Song) (track : Track) (tok : String)
    (htok : track_data_token song track tok = .error .valueError) :
    ∀ props : List String, tok ∈ props →
      ∃ e, mapE (track_data_token song track) props = .error e := by
  intro props
  induction props with
  | nil => intro h; cases h
  | cons p ps ih =>
    intro hmem
    rw [mapE_cons]
    cases hp : track_data_token song track p with
    | error e => exact ⟨e, by simp [hp]⟩
    | ok vs =>
      simp only [hp, bindE_ok]
      have hmem' : tok ∈ ps := by
        cases hmem with
        | head => rw [htok] at hp; cases hp
        | tail _ h => exact h
      obtain ⟨e, he⟩ := ih hmem'
      exact ⟨e, by simp [he]⟩

/-- `range(a, b)` starts at `a` when `a < b`. -/
theorem intRange_cons (a b : ℤ) (h : a < b) :
    intRange a b = a :: intRange (a + 1) b := by
  unfold intRange
  have hn : (b - a).toNat = (b - (a + 1)).toNat + 1 := by omega
  rw [hn, List.range_succ_eq_map, List.map_cons, List.map_map]
  have hf : ((fun k : ℕ => a + (k : ℤ)) ∘ Nat.succ)
      = fun k : ℕ => (a + 1) + (k : ℤ) := by
    funext k
    simp only [Function.comp_apply, Nat.succ_eq_add_one]
    push_cast
    ring
  rw [hf]
  simp

/-- C9 counterexample: with an empty track range, a malformed token such as
`name` is never inspected: the query succeeds with an empty response instead
of raising. -/
theorem malformed_token_empty_range_counterexample :
    song_get_track_data demoSong 0 0 ["name"] = .ok [] ∧
    (pySplitDot "name").length ≠ 2 :=
  ⟨by rfl, by decide⟩

/-- C9 amended: if the query contains a token whose split around `.` does not
have exactly two parts and the resolved track range is non-empty, the whole
query aborts with an exception (the `ValueError` of the unpacking, or an
earlier `IndexError`/`AttributeError` that preempts it) and returns no
values at all. -/
theorem malformed_token_aborts (song : Song) (tmin tmax : ℤ)
    (props : List String) (tok : String)
    (hmem : tok ∈ props)
    (hbad : (pySplitDot tok).length ≠ 2)
    (hne : tmin < (if tmax = -1 then (song.tracks.length : ℤ) else tmax)) :
    ∃ e, song_get_track_data song tmin tmax props = .error e := by
  rw [track_data_eq_spec]
  unfold track_data_spec_order
  rw [intRange_cons tmin _ hne, mapE_cons]
  cases hg : pyListGet song.tracks tmin with
  | error e => exact ⟨e, by simp [track_values, hg]⟩
  | ok track =>
    obtain ⟨e, he⟩ := mapE_mem_error song track tok
      (track_data_token_bad_split song track tok hbad) props hmem
    exact ⟨e, by simp [track_values, hg, he]⟩

/-- Witness for C9 as amended, on the demo session with a non-empty range. -/
theorem malformed_token_aborts_witness :
    ∃ e, song_get_track_data demoSong 0 2 ["name"] = .error e :=
  malformed_token_aborts demoSong 0 2 ["name"] "name"
    (by decide) (by decide) (by decide)

/-! ## Cue point jumping: `song_jump_to_cue_point` (song.py lines 306-315)

Per spec.md §6 the protocol arguments are integers, floats and strings; the
handler dispatches on the runtime type of `params[0]`. `cue_point.jump()` is
a host side effect, so the handler's observable behaviour is the sequence of
cue points jumped; the embedding returns that list (in invocation order). -/

/-- A cue point: its name and time. -/
structure CuePoint where
  name : String
  time : ℚ
  deriving DecidableEq, Repr

/-- A protocol argument value: integer, float or string (spec.md §6). -/
inductive PyVal where
  | pystr : String → PyVal
  | pyint : ℤ → PyVal
  | pyfloat : ℚ → PyVal
  deriving DecidableEq, Repr

/-- The loop `for cue_point in song.cue_points: if cue_point.name ==
cue_point_index: cue_point.jump()`; the result lists the cue points jumped,
in iteration order. -/
def jumpMatchingCues (s : String) : List CuePoint → List CuePoint
  | [] => []
  | c :: cs =>
    if c.name = s then c :: jumpMatchingCues s cs
    else jumpMatchingCues s cs

/-- `song_jump_to_cue_point` (song.py lines 306-315): `params[0]` raises
`IndexError` on an empty argument tuple; a string argument jumps every cue
point with that name; an integer argument jumps `song.cue_points[index]`
(Python subscript, so negative indices count from the end and anything out of
range raises `IndexError`); any other argument type falls through the
`if/elif` and jumps nothing. -/
def song_jump_to_cue_point (cue_points : List CuePoint) (params : List PyVal) :
    Except PyErr (List CuePoint) :=
  match params with
  | [] => .error .indexError
  | p :: _ =>
    match p with
    | .pystr s => .ok (jumpMatchingCues s cue_points)
    | .pyint i =>
      match pyListGet cue_points i with
      | .ok c => .ok [c]
      | .error e => .error e
    | .pyfloat _ => .ok []

/-- The jump loop keeps exactly the name matches, in order. -/
theorem jumpMatchingCues_eq_filter (s : String) :
    ∀ cps : List CuePoint,
      jumpMatchingCues s cps = cps.filter (fun c => c.name == s) := by
  intro cps
  induction cps with
  | nil => rfl
  | cons c cs ih =>
    by_cases h : c.name = s <;>
      simp [jumpMatchingCues, List.filter_cons, h, ih]

/-- Python subscript at a nonnegative in-range index. -/
theorem pyListGet_nonneg {α : Type} (xs : List α) (i : ℤ) (hi : 0 ≤ i)
    (c : α) (hc : xs[i.toNat]? = some c) : pyListGet xs i = .ok c := by
  simp only [pyListGet]
  rw [if_neg (by omega : ¬ i < 0), if_pos hi, hc]

/-- Python subscript at a negative in-range index counts from the end. -/
theorem pyListGet_negIdx {α : Type} (xs : List α) (i : ℤ)
    (hlb : -(xs.length : ℤ) ≤ i) (hub : i < 0)
    (c : α) (hc : xs[(i + xs.length).toNat]? = some c) :
    pyListGet xs i = .ok c := by
  simp only [pyListGet]
  rw [if_pos hub, if_pos (by omega : (0 : ℤ) ≤ i + xs.length), hc]

/-- Python subscript out of range raises `IndexError`. -/
theorem pyListGet_oob {α : Type} (xs : List α) (i : ℤ)
    (h : i < -(xs.length : ℤ) ∨ (xs.length : ℤ) ≤ i) :
    pyListGet xs i = .error .indexError := by
  simp only [pyListGet]
  by_cases hneg : i < 0
  · rw [if_pos hneg, if_neg (by omega)]
  · have hge : (xs.length : ℤ) ≤ i := by omega
    rw [if_neg hneg, if_pos (by omega),
        List.getElem?_eq_none (by omega : xs.length ≤ i.toNat)]

/-- C10: with a string first argument the handler jumps exactly the cue
points whose name equals it, in order (none when no name matches, several
when names repeat); with an integer first argument it jumps the cue point at
that Python index (negative indices count from the end) and raises
`IndexError` out of range; with a float first argument it jumps nothing and
raises nothing. -/
theorem jump_cue_point_dispatch :
    (∀ (cps : List CuePoint) (s : String) (rest : List PyVal),
      song_jump_to_cue_point cps (.pystr s :: rest)
        = .ok (cps.filter (fun c => c.name == s))) ∧
    (∀ (cps : List CuePoint) (i : ℤ) (rest : List PyVal),
      (0 ≤ i → ∀ c, cps[i.toNat]? = some c →
        song_jump_to_cue_point cps (.pyint i :: rest) = .ok [c]) ∧
      (-(cps.length : ℤ) ≤ i → i < 0 →
        ∀ c, cps[(i + cps.length).toNat]? = some c →
          song_jump_to_cue_point cps (.pyint i :: rest) = .ok [c]) ∧
      ((i < -(cps.length : ℤ) ∨ (cps.length : ℤ) ≤ i) →
        song_jump_to_cue_point cps (.pyint i :: rest) = .error .indexError)) ∧
    (∀ (cps : List CuePoint) (q : ℚ) (rest : List PyVal),
      song_jump_to_cue_point cps (.pyfloat q :: rest) = .ok []) := by
  refine ⟨?_, ?_, ?_⟩
  · intro cps s rest
    simp only [song_jump_to_cue_point]
    rw [jumpMatchingCues_eq_filter]
  · intro cps i rest
    refine ⟨?_, ?_, ?_⟩
    · intro hi c hc
      simp only [song_jump_to_cue_point]
      rw [pyListGet_nonneg cps i hi c hc]
    · intro hlb hub c hc
      simp only [song_jump_to_cue_point]
      rw [pyListGet_negIdx cps i hlb hub c hc]
    · intro hoob
      simp only [song_jump_to_cue_point]
      rw [pyListGet_oob cps i hoob]
  · intro cps q rest
    rfl

/-- A demo cue point named "intro". -/
def demoCue0 : CuePoint := { name := "intro", time := 0 }

/-- A demo cue point named "drop". -/
def demoCue1 : CuePoint := { name := "drop", time := 16 }

/-- Witness for C10: index 1 jumps the second cue point, index 5 raises. -/
theorem jump_cue_point_dispatch_witness :
    song_jump_to_cue_point [demoCue0, demoCue1] [.pyint 1] = .ok [demoCue1] ∧
    song_jump_to_cue_point [demoCue0, demoCue1] [.pyint 5]
      = .error .indexError :=
  ⟨(jump_cue_point_dispatch.2.1 [demoCue0, demoCue1] 1 []).1
      (by decide) demoCue1 (by rfl),
   (jump_cue_point_dispatch.2.1 [demoCue0, demoCue1] 5 []).2.2 (by decide)⟩

end Abl
